import Mathlib

/-! The configuration header `zugentlastung/secrets.h`

The repository's only source file is a C header made of object-like
`#define` directives behind an include guard.  The development below keeps
the text of the header line by line, gives the fragment of the C
preprocessor the header uses (line comments, `#ifndef`, `#ifdef`, `#endif`,
`#define`) as executable functions, and reads the configuration constants
off the resulting definition table.
-/

namespace Secrets

/-! ## The header text -/

/-- The lines of `src/zugentlastung/secrets.h`, in order and unchanged
(the blank after the `WIFI_PASS` literal included). -/
def secrets_h : List String :=
  [ r#"#ifndef SECRETS_H"#,
    r#"#define SECRETS_H"#,
    r#""#,
    r#"// WiFi Configuration"#,
    r#"#define WIFI_SSID "POMPI-LAB""#,
    r#"#define WIFI_PASS "POMPIPOM" "#,
    r#""#,
    r#"// MQTT Broker Configuration (Windows PC)"#,
    r#"#define MQTT_SERVER "192.168.4.1""#,
    r#"#define MQTT_PORT 1883"#,
    r#"#define MQTT_TOPIC "factory/scale/zugentlastung""#,
    r#"// #define MQTT_USER "user" // Not needed (allow_anonymous true)"#,
    r#"// #define MQTT_PASS "pass""#,
    r#""#,
    r#"#endif"# ]

/-! ## The constants, as the firmware sees them -/

/-- Line 5: `#define WIFI_SSID "POMPI-LAB"`. -/
def WIFI_SSID : String := "POMPI-LAB"

/-- Line 6: `#define WIFI_PASS "POMPIPOM"`. -/
def WIFI_PASS : String := "POMPIPOM"

/-- Line 9: `#define MQTT_SERVER "192.168.4.1"`. -/
def MQTT_SERVER : String := "192.168.4.1"

/-- Line 10: `#define MQTT_PORT 1883`, a decimal constant of C type `int`. -/
def MQTT_PORT : Int := 1883

/-- Line 11: `#define MQTT_TOPIC "factory/scale/zugentlastung"`. -/
def MQTT_TOPIC : String := "factory/scale/zugentlastung"

/-! ## The preprocessor fragment -/

/-- The double quote that delimits a C string literal. -/
def dquote : Char := Char.ofNat 34

/-- Horizontal white space inside a line. -/
def isBlank (c : Char) : Bool := c = ' ' || c = Char.ofNat 9

/-- Characters of a C identifier. -/
def isIdentChar (c : Char) : Bool := c.isAlphanum || c = '_'

/-- Cut a line at its `//` comment.  The flag records whether the scan is
inside a string literal, where `//` is ordinary text. -/
def stripComment : Bool → List Char → List Char
  | _, [] => []
  | inLit, c :: cs =>
    if c = dquote then c :: stripComment (!inLit) cs
    else if !inLit && c = '/' && cs.head? = some '/' then []
    else c :: stripComment inLit cs

/-- Drop leading white space. -/
def trimLeft (cs : List Char) : List Char := cs.dropWhile isBlank

/-- Drop trailing white space. -/
def trimRight (cs : List Char) : List Char := (cs.reverse.dropWhile isBlank).reverse

/-- A line of the header after comment removal. -/
inductive Directive where
  | ifndefLine (name : String)
  | ifdefLine (name : String)
  | endifLine
  | defineLine (name : String) (body : List Char)
  | unknownLine (word : String)
  | textLine
  deriving DecidableEq, Repr

/-- Read the identifier at the start of `cs` (after white space) and return
it with the rest of the line. -/
def readIdent (cs : List Char) : String × List Char :=
  let cs := trimLeft cs
  (String.mk (cs.takeWhile isIdentChar), cs.dropWhile isIdentChar)

/-- Classify one line: a directive starts with `#` as first non-blank
character; the replacement list of a `#define` is the rest of the line
without the surrounding white space. -/
def parseLine (line : String) : Directive :=
  match trimLeft (stripComment false line.toList) with
  | '#' :: rest =>
    let (word, rest) := readIdent rest
    if word = "ifndef" then .ifndefLine (readIdent rest).1
    else if word = "ifdef" then .ifdefLine (readIdent rest).1
    else if word = "endif" then .endifLine
    else if word = "define" then
      let (name, body) := readIdent rest
      .defineLine name (trimRight (trimLeft body))
    else .unknownLine word
  | _ => .textLine

/-- Preprocessor state: the definition table in order of definition, the
number of open conditionals whose group is being read, and the number of
open conditionals inside a skipped group (0 when lines are active). -/
structure PPState where
  defs : List (String × List Char)
  depth : Nat
  skip : Nat
  deriving DecidableEq, Repr

/-- Whether `name` is in the definition table. -/
def isDefined (defs : List (String × List Char)) (name : String) : Bool :=
  defs.any (fun d => d.1 = name)

/-- One line inside a skipped group: only the nesting of conditionals is
followed. -/
def stepSkipped (st : PPState) : Directive → PPState
  | .ifndefLine _ => { st with skip := st.skip + 1 }
  | .ifdefLine _ => { st with skip := st.skip + 1 }
  | .endifLine => { st with skip := st.skip - 1 }
  | _ => st

/-- One active line.  `none` is a diagnosed error: an `#endif` without an
open conditional, a directive outside the fragment, a `#define` without a
name, or a redefinition with a different body. -/
def stepActive (st : PPState) : Directive → Option PPState
  | .ifndefLine n =>
    if isDefined st.defs n then some { st with skip := 1 }
    else some { st with depth := st.depth + 1 }
  | .ifdefLine n =>
    if isDefined st.defs n then some { st with depth := st.depth + 1 }
    else some { st with skip := 1 }
  | .endifLine => if 0 < st.depth then some { st with depth := st.depth - 1 } else none
  | .defineLine n body =>
    if n = "" then none
    else
      match st.defs.lookup n with
      | none => some { st with defs := st.defs ++ [(n, body)] }
      | some old => if old = body then some st else none
  | .unknownLine _ => none
  | .textLine => some st

/-- One line of preprocessing. -/
def step (st : PPState) (d : Directive) : Option PPState :=
  if 0 < st.skip then some (stepSkipped st d) else stepActive st d

/-- Run the preprocessor over the directives of a file. -/
def run : PPState → List Directive → Option PPState
  | st, [] => some st
  | st, d :: ds => (step st d).bind (fun st1 => run st1 ds)

/-- Preprocess a file from the definition table `defs`; the conditionals
must be closed at the end of the file. -/
def preprocessFrom (defs : List (String × List Char)) (file : List String) :
    Option (List (String × List Char)) :=
  match run ⟨defs, 0, 0⟩ (file.map parseLine) with
  | some st => if st.depth = 0 ∧ st.skip = 0 then some st.defs else none
  | none => none

/-- Preprocess a file included first in a translation unit. -/
def preprocess (file : List String) : Option (List (String × List Char)) :=
  preprocessFrom [] file

/-! ## Reading values off the definition table -/

/-- What a replacement list denotes where the firmware uses the name. -/
inductive Value where
  | str (s : String)
  | int (n : Int)
  | empty
  | tokens (body : List Char)
  deriving DecidableEq, Repr

/-- Value of a run of decimal digits. -/
def decValue (ds : List Char) : Nat :=
  ds.foldl (fun n c => 10 * n + (c.toNat - '0'.toNat)) 0

/-- Read a replacement list: nothing, one string literal without escape
sequences, or one decimal constant (a leading `0` would make it octal, so
such a body is left as tokens). -/
def parseValue (body : List Char) : Value :=
  match body with
  | [] => .empty
  | c :: rest =>
    if c = dquote then
      match rest.reverse with
      | [] => .tokens body
      | e :: innerRev =>
        if e = dquote ∧ innerRev.all (fun x => x != dquote && x != Char.ofNat 92) then
          .str (String.mk innerRev.reverse)
        else .tokens body
    else if body.all Char.isDigit ∧ (c ≠ '0' ∨ rest = []) then .int (decValue body)
    else .tokens body

/-- The value a file gives to `name`, `none` when the file does not
preprocess or does not define the name. -/
def valueOf (file : List String) (name : String) : Option Value :=
  (preprocess file).bind (fun defs => (defs.lookup name).map parseValue)

/-- Whether a file defines `name` (`none` when the file does not preprocess). -/
def definesName (file : List String) (name : String) : Option Bool :=
  (preprocess file).map (fun defs => isDefined defs name)

/-- Every name a file defines, in order of definition. -/
def definedNames (file : List String) : Option (List String) :=
  (preprocess file).map (fun defs => defs.map Prod.fst)

/-- The names a file defines with a value: those whose replacement list is
not empty.  An include guard is defined with an empty replacement list and
carries no configuration. -/
def configIdentifiers (file : List String) : Option (List String) :=
  (preprocess file).map
    (fun defs => (defs.filter (fun d => parseValue d.2 != Value.empty)).map Prod.fst)

/-! ## Text predicates used by the format properties -/

/-- Whether `pat` occurs as a contiguous run inside `cs`. -/
def occursIn (pat : List Char) : List Char → Bool
  | [] => pat.isEmpty
  | c :: cs => pat.isPrefixOf (c :: cs) || occursIn pat cs

/-- Whether a line of text mentions `word`. -/
def mentions (word line : String) : Bool := occursIn word.toList line.toList

/-- A line with its `//` comment removed. -/
def uncommented (line : String) : String := String.mk (stripComment false line.toList)

/-- Split at every occurrence of `sep`; the pieces between two separators,
before the first and after the last are kept even when empty. -/
def splitOn (sep : Char) : List Char → List (List Char)
  | [] => [[]]
  | c :: cs =>
    if c = sep then [] :: splitOn sep cs
    else
      match splitOn sep cs with
      | [] => [[c]]
      | p :: ps => (c :: p) :: ps

/-- Printable ASCII: codes 32 to 126. -/
def isPrintableAscii (c : Char) : Bool := decide (32 ≤ c.toNat) && decide (c.toNat ≤ 126)

/-! ## The header preprocesses, and the include guard works -/

/-- The definition table of the header, first inclusion: the include guard
with an empty replacement list, then the five configuration constants with
the spelling of their values. -/
theorem preprocess_secrets_h :
    preprocess secrets_h = some
      [ ("SECRETS_H", []),
        ("WIFI_SSID", dquote :: "POMPI-LAB".toList ++ [dquote]),
        ("WIFI_PASS", dquote :: "POMPIPOM".toList ++ [dquote]),
        ("MQTT_SERVER", dquote :: "192.168.4.1".toList ++ [dquote]),
        ("MQTT_PORT", "1883".toList),
        ("MQTT_TOPIC", dquote :: "factory/scale/zugentlastung".toList ++ [dquote]) ] := by
  decide

/-- A second inclusion of the header is skipped by the guard: the table is
unchanged, whatever else has been defined in between. -/
theorem include_guard_skips (defs : List (String × List Char))
    (h : isDefined defs "SECRETS_H" = true) :
    preprocessFrom defs secrets_h = some defs := by
  have hp : secrets_h.map parseLine =
      [ .ifndefLine "SECRETS_H", .defineLine "SECRETS_H" [], .textLine, .textLine,
        .defineLine "WIFI_SSID" (dquote :: "POMPI-LAB".toList ++ [dquote]),
        .defineLine "WIFI_PASS" (dquote :: "POMPIPOM".toList ++ [dquote]), .textLine, .textLine,
        .defineLine "MQTT_SERVER" (dquote :: "192.168.4.1".toList ++ [dquote]),
        .defineLine "MQTT_PORT" "1883".toList,
        .defineLine "MQTT_TOPIC" (dquote :: "factory/scale/zugentlastung".toList ++ [dquote]),
        .textLine, .textLine, .textLine, .endifLine ] := by decide
  unfold preprocessFrom
  rw [hp]
  simp [run, step, stepSkipped, stepActive, h]

/-- A replacement list read as a string literal is that string between two
double quotes: reading loses nothing. -/
theorem parseValue_str (body : List Char) (s : String)
    (h : parseValue body = .str s) : body = dquote :: s.toList ++ [dquote] := by
  unfold parseValue at h
  split at h
  · cases h
  · rename_i c rest
    split at h
    · rename_i hc
      split at h
      · cases h
      · rename_i e innerRev hrev
        split at h
        · rename_i hcond
          injection h with hs
          subst hs
          have hrest : rest = innerRev.reverse ++ [e] := by
            have h2 := congrArg List.reverse hrev
            simpa using h2
          simp [hrest, hc, hcond.1]
        · cases h
    · split at h <;> cases h

/-- A replacement list read as an integer constant is a non-empty run of
decimal digits with that value. -/
theorem parseValue_int (body : List Char) (n : Int)
    (h : parseValue body = .int n) :
    body ≠ [] ∧ body.all Char.isDigit = true ∧ n = decValue body := by
  unfold parseValue at h
  split at h
  · cases h
  · rename_i c rest
    split at h
    · split at h
      · cases h
      · split at h <;> cases h
    · split at h
      · rename_i hcond
        injection h with hn
        exact ⟨by simp, hcond.1, hn.symm⟩
      · cases h

/-! ## The claims -/

/-- C1: the header defines the five required identifiers `WIFI_SSID`,
`WIFI_PASS`, `MQTT_SERVER`, `MQTT_PORT` and `MQTT_TOPIC` (four as string
literals, the port as an integer constant), and none of the four strings is
empty. -/
theorem required_identifiers_defined_nonempty :
    valueOf secrets_h "WIFI_SSID" = some (.str WIFI_SSID) ∧
    valueOf secrets_h "WIFI_PASS" = some (.str WIFI_PASS) ∧
    valueOf secrets_h "MQTT_SERVER" = some (.str MQTT_SERVER) ∧
    valueOf secrets_h "MQTT_PORT" = some (.int MQTT_PORT) ∧
    valueOf secrets_h "MQTT_TOPIC" = some (.str MQTT_TOPIC) ∧
    WIFI_SSID ≠ "" ∧ WIFI_PASS ≠ "" ∧ MQTT_SERVER ≠ "" ∧ MQTT_TOPIC ≠ "" ∧
    0 < WIFI_SSID.length ∧ 0 < WIFI_PASS.length ∧
    0 < MQTT_SERVER.length ∧ 0 < MQTT_TOPIC.length := by
  decide

/-- C2: `MQTT_PORT` is the integer 1883, and 1 ≤ `MQTT_PORT` ≤ 65535. -/
theorem mqtt_port_is_1883_in_tcp_range :
    valueOf secrets_h "MQTT_PORT" = some (.int MQTT_PORT) ∧
    MQTT_PORT = 1883 ∧ 1 ≤ MQTT_PORT ∧ MQTT_PORT ≤ 65535 := by
  decide

/-- C3: `MQTT_SERVER` is a dotted-quad IPv4 address: split at `.` it has
exactly four parts (192, 168, 4, 1), each a non-empty run of decimal digits
of value at most 255. -/
theorem mqtt_server_is_ipv4 :
    valueOf secrets_h "MQTT_SERVER" = some (.str MQTT_SERVER) ∧
    (splitOn '.' MQTT_SERVER.toList).length = 4 ∧
    (∀ p ∈ splitOn '.' MQTT_SERVER.toList,
      p ≠ [] ∧ p.all Char.isDigit = true ∧ 0 ≤ decValue p ∧ decValue p ≤ 255) ∧
    (splitOn '.' MQTT_SERVER.toList).map decValue = [192, 168, 4, 1] := by
  decide

/-- C4: no character of `MQTT_TOPIC` is NUL, `#` or `+`. -/
theorem mqtt_topic_has_no_invalid_char :
    valueOf secrets_h "MQTT_TOPIC" = some (.str MQTT_TOPIC) ∧
    ∀ c ∈ MQTT_TOPIC.toList, c ≠ Char.ofNat 0 ∧ c ≠ '#' ∧ c ≠ '+' := by
  decide

/-- C5: the header defines neither `MQTT_USER` nor `MQTT_PASS`; each name
is in the text of the header, and only inside a comment; the identifiers
defined with a value are exactly the five required ones (the one other
name the header defines is its include guard `SECRETS_H`, with an empty
replacement list). -/
theorem optional_credentials_not_defined :
    definesName secrets_h "MQTT_USER" = some false ∧
    definesName secrets_h "MQTT_PASS" = some false ∧
    valueOf secrets_h "MQTT_USER" = none ∧
    valueOf secrets_h "MQTT_PASS" = none ∧
    (∃ l ∈ secrets_h, mentions "MQTT_USER" l = true) ∧
    (∃ l ∈ secrets_h, mentions "MQTT_PASS" l = true) ∧
    (∀ l ∈ secrets_h, mentions "MQTT_USER" (uncommented l) = false) ∧
    (∀ l ∈ secrets_h, mentions "MQTT_PASS" (uncommented l) = false) ∧
    configIdentifiers secrets_h =
      some ["WIFI_SSID", "WIFI_PASS", "MQTT_SERVER", "MQTT_PORT", "MQTT_TOPIC"] ∧
    definedNames secrets_h =
      some ["SECRETS_H", "WIFI_SSID", "WIFI_PASS", "MQTT_SERVER", "MQTT_PORT", "MQTT_TOPIC"] ∧
    valueOf secrets_h "SECRETS_H" = some .empty := by
  decide

/-- C6: `WIFI_PASS` has between 8 and 63 characters, each of them printable
ASCII (code 32 to 126). -/
theorem wifi_pass_is_wpa_passphrase :
    valueOf secrets_h "WIFI_PASS" = some (.str WIFI_PASS) ∧
    8 ≤ WIFI_PASS.length ∧ WIFI_PASS.length ≤ 63 ∧
    (∀ c ∈ WIFI_PASS.toList, 32 ≤ c.toNat ∧ c.toNat ≤ 126) ∧
    WIFI_PASS.toList.all isPrintableAscii = true := by
  decide

/-- C7: the length of `WIFI_SSID` in bytes is at least 1 and at most 32. -/
theorem wifi_ssid_length_in_range :
    valueOf secrets_h "WIFI_SSID" = some (.str WIFI_SSID) ∧
    1 ≤ WIFI_SSID.utf8ByteSize ∧ WIFI_SSID.utf8ByteSize ≤ 32 ∧
    WIFI_SSID.utf8ByteSize = WIFI_SSID.length := by
  decide

/-- C8: split at `/`, `MQTT_TOPIC` has exactly the three levels `factory`,
`scale`, `zugentlastung`, none of them empty; it neither starts nor ends with
`/` and has no `//`. -/
theorem mqtt_topic_has_three_levels :
    valueOf secrets_h "MQTT_TOPIC" = some (.str MQTT_TOPIC) ∧
    splitOn '/' MQTT_TOPIC.toList =
      ["factory".toList, "scale".toList, "zugentlastung".toList] ∧
    (splitOn '/' MQTT_TOPIC.toList).length = 3 ∧
    (∀ level ∈ splitOn '/' MQTT_TOPIC.toList, level ≠ []) ∧
    MQTT_TOPIC.toList.head? ≠ some '/' ∧
    MQTT_TOPIC.toList.getLast? ≠ some '/' ∧
    occursIn "//".toList MQTT_TOPIC.toList = false := by
  decide

end Secrets
